import Mathlib

/-!
Verification of the schema-inference and mapping-suggestion engine of
ProductMasterSync (`src/mdm_supplier/mapping.py`, with the record filter
contract of `apply_filters` as called from `src/app.py`).

Modelling conventions:
* Python scalar values become the inductive `PyVal` (records are flat, as the
  connectors produce flat records).  A Python float is a finite value
  (a dyadic rational, modelled in `ℚ`) or one of the special values
  `inf`, `-inf`, `nan`.
* A Python dict (record) is an association list in insertion order; a Python
  set of field names is a duplicate-free list in insertion order (the only
  observable uses of set order are tie-breaks, which this fixes
  deterministically).
* Score arithmetic (ratios and weighted sums in the unit interval) is exact
  in doubles' range and is modelled as exact rational arithmetic over `ℚ`.
* Fallible conversions (`float(v)`, `int(v)`) return `Except`: the
  `OverflowError` they can raise is NOT caught by `validate_schema`'s
  `except (ValueError, TypeError)` clauses, so `validate_schema` itself
  returns `Except`, propagating that error as the Python function does.
* `difflib.SequenceMatcher.ratio` is embedded as the Ratcliff-Obershelp
  matching-block count without the autojunk heuristic; the heuristic only
  activates for strings of length at least 200, so this agrees with Python on
  field names of realistic length.
* `str.lower` is modelled on ASCII letters (`String.toLower`).
-/

set_option maxRecDepth 100000

namespace PMS

/-- A Python float: a finite double (a dyadic rational, modelled in `ℚ`) or
one of the special values `float('inf')`, `float('-inf')`, `float('nan')`. -/
inductive PyFloat where
  | finite (q : ℚ)
  | inf
  | ninf
  | nan
  deriving DecidableEq, Repr

/-- A flat Python scalar value as found in a sample record. -/
inductive PyVal where
  | null
  | str (s : String)
  | int (n : Int)
  | float (f : PyFloat)
  | bool (b : Bool)
  deriving DecidableEq, Repr

/-- A sample record: a Python dict, key insertion order preserved. -/
abbrev Rec := List (String × PyVal)

/-- The keys of a record, in order. -/
def recKeys (r : Rec) : List String := r.map Prod.fst

/-- `record.get(k)`: the value stored at the first occurrence of key `k`. -/
def recGet (r : Rec) (k : String) : Option PyVal :=
  (r.find? (fun p => p.1 == k)).map Prod.snd

/-- `type(value).__name__`, with `None` mapped to the tag `"null"` as in the
source's `validate_schema`. -/
def typeName : PyVal → String
  | .null => "null"
  | .str _ => "str"
  | .int _ => "int"
  | .float _ => "float"
  | .bool _ => "bool"

/-! ### String helpers (substring, suffix, lowering) -/

/-- `startsSeq needle hay`: `needle` is an initial run of `hay`. -/
def startsSeq : List Char → List Char → Bool
  | [], _ => true
  | _ :: _, [] => false
  | a :: as, b :: bs => a == b && startsSeq as bs

/-- `seqIn needle hay`: Python `needle in hay` (contiguous substring). -/
def seqIn (needle : List Char) : List Char → Bool
  | [] => needle.isEmpty
  | b :: bs => startsSeq needle (b :: bs) || seqIn needle bs

/-- Substring test on strings, Python `sub in hay`. -/
def strIn (sub hay : String) : Bool := seqIn sub.toList hay.toList

/-- `hay.endswith(suffix)`. -/
def endsSeq (tail hay : String) : Bool :=
  startsSeq tail.toList.reverse hay.toList.reverse

/-! ### Python numeric-string parsing (`float(s)` / `int(s)`) -/

/-- Characters Python strips around numeric literals. -/
def isPyWs (c : Char) : Bool :=
  c == ' ' || c == '\t' || c == '\n' || c == '\r' || c == '\x0b' || c == '\x0c'

/-- A run of decimal digits split off the front. -/
def takeDigits : List Char → List Char × List Char
  | [] => ([], [])
  | c :: cs =>
    if c.isDigit then
      let (d, r) := takeDigits cs
      (c :: d, r)
    else ([], c :: cs)

/-- Exponent part `e[sign]digits`, or no exponent. -/
def expOk : List Char → Bool
  | [] => true
  | c :: cs =>
    if c == 'e' || c == 'E' then
      let cs' := match cs with
        | s :: rest => if s == '+' || s == '-' then rest else s :: rest
        | [] => []
      let (d, r) := takeDigits cs'
      !d.isEmpty && r.isEmpty
    else false

/-- The unsigned body of a Python float literal:
`digits [. digits] [exp]`, `. digits [exp]`, or (case-insensitively)
`inf`, `infinity`, `nan`.  Digit-group underscores are not modelled. -/
def floatBody (cs : List Char) : Bool :=
  let low := cs.map Char.toLower
  if low == "inf".toList || low == "infinity".toList || low == "nan".toList then true
  else
    let (intPart, r1) := takeDigits cs
    match r1 with
    | '.' :: r2 =>
      let (fracPart, r3) := takeDigits r2
      (!intPart.isEmpty || !fracPart.isEmpty) && expOk r3
    | _ => !intPart.isEmpty && expOk r1

/-- Python `float(s)` succeeds on string `s`. -/
def floatParses (s : String) : Bool :=
  let cs := (s.toList.dropWhile isPyWs).reverse.dropWhile isPyWs |>.reverse
  match cs with
  | c :: rest => if c == '+' || c == '-' then floatBody rest else floatBody cs
  | [] => false

/-- Python `int(s)` succeeds on string `s` (base 10). -/
def intParses (s : String) : Bool :=
  let cs := (s.toList.dropWhile isPyWs).reverse.dropWhile isPyWs |>.reverse
  let body := fun (l : List Char) =>
    let (d, r) := takeDigits l
    !d.isEmpty && r.isEmpty
  match cs with
  | c :: rest => if c == '+' || c == '-' then body rest else body cs
  | [] => false

/-- The exception classes that can escape `validate_schema`'s coercion
attempts: its `except (ValueError, TypeError)` clauses absorb those two, but
an `OverflowError` propagates out of the function. -/
inductive PyErr where
  | overflowError
  deriving DecidableEq, Repr

/-- The smallest magnitude at which Python `float(n)` on an int raises
`OverflowError`: an integer of absolute value at least `2^1024 - 2^970`
rounds (half-even) to `2^1024`, past the largest finite double
`2^1024 - 2^971`. -/
def floatMaxInt : Nat := 2 ^ 1024 - 2 ^ 970

/-- Python `float(value)`: `ok true` on success, `ok false` when it raises
`ValueError`/`TypeError` (caught by the source), `error` on the uncaught
`OverflowError` for an int beyond double range.  A numeric string that
overflows (e.g. `"1e400"`) succeeds in Python, producing `inf`. -/
def pyFloatTry : PyVal → Except PyErr Bool
  | .str s => .ok (floatParses s)
  | .int n => if n.natAbs ≥ floatMaxInt then .error .overflowError else .ok true
  | .float _ => .ok true
  | .bool _ => .ok true
  | .null => .ok false

/-- Python `int(value)`: `ok true` on success, `ok false` when it raises
`ValueError`/`TypeError` (caught: non-numeric strings, `None`, `nan`),
`error` on the uncaught `OverflowError` raised by `int(float('inf'))` and
`int(float('-inf'))`. -/
def pyIntTry : PyVal → Except PyErr Bool
  | .str s => .ok (intParses s)
  | .int _ => .ok true
  | .float (.finite _) => .ok true
  | .float .inf => .error .overflowError
  | .float .ninf => .error .overflowError
  | .float .nan => .ok false
  | .bool _ => .ok true
  | .null => .ok false

/-- `float(value)` completes without exception and succeeds (the Bool the
non-crashing run of the float-coercion branch assigns to `is_valid`). -/
def pyFloatOk (v : PyVal) : Bool :=
  match pyFloatTry v with
  | .ok b => b
  | .error _ => false

/-! ### `datetime.strptime` on the eight formats tried by `validate_schema`

CPython's `_strptime` compiles each format to a regex: `%Y` is four digits,
`%m` is `1[0-2]|0[1-9]|[1-9]`, `%d` is `3[01]|[12]\d|0[1-9]|[1-9]`, `%b` is a
case-insensitive month abbreviation, whitespace in the format matches one or
more whitespace characters, other characters are literals; the whole string
must be consumed, and constructing the resulting `date` rejects impossible
dates (year 0, day past month end).  The matcher below mirrors the regex's
ordered-alternation backtracking. -/

/-- One token of a compiled `strptime` format. -/
inductive FTok where
  | year
  | mon
  | day
  | monAbbr
  | lit (c : Char)
  | ws
  deriving DecidableEq, Repr

/-- English month abbreviations, lowercase. -/
def monthAbbrs : List (List Char × Nat) :=
  [("jan".toList, 1), ("feb".toList, 2), ("mar".toList, 3), ("apr".toList, 4),
   ("may".toList, 5), ("jun".toList, 6), ("jul".toList, 7), ("aug".toList, 8),
   ("sep".toList, 9), ("oct".toList, 10), ("nov".toList, 11), ("dec".toList, 12)]

/-- Digit value of a char (caller guarantees `isDigit`). -/
def digitVal (c : Char) : Nat := c.toNat - '0'.toNat

/-- Candidate `(value, rest)` pairs for `%m`, in regex alternation order. -/
def monCands : List Char → List (Nat × List Char)
  | c1 :: c2 :: r =>
    (if c1 == '1' && ('0' ≤ c2 && c2 ≤ '2') then [(10 + digitVal c2, r)] else [])
    ++ (if c1 == '0' && ('1' ≤ c2 && c2 ≤ '9') then [(digitVal c2, r)] else [])
    ++ (if '1' ≤ c1 && c1 ≤ '9' then [(digitVal c1, c2 :: r)] else [])
  | [c1] => if '1' ≤ c1 && c1 ≤ '9' then [(digitVal c1, [])] else []
  | [] => []

/-- Candidate `(value, rest)` pairs for `%d`, in regex alternation order. -/
def dayCands : List Char → List (Nat × List Char)
  | c1 :: c2 :: r =>
    (if c1 == '3' && ('0' ≤ c2 && c2 ≤ '1') then [(30 + digitVal c2, r)] else [])
    ++ (if ('1' ≤ c1 && c1 ≤ '2') && c2.isDigit then [(10 * digitVal c1 + digitVal c2, r)] else [])
    ++ (if c1 == '0' && ('1' ≤ c2 && c2 ≤ '9') then [(digitVal c2, r)] else [])
    ++ (if '1' ≤ c1 && c1 ≤ '9' then [(digitVal c1, c2 :: r)] else [])
  | [c1] => if '1' ≤ c1 && c1 ≤ '9' then [(digitVal c1, [])] else []
  | [] => []

/-- Candidate `(value, rest)` pairs for `%Y`: exactly four digits. -/
def yearCands : List Char → List (Nat × List Char)
  | c1 :: c2 :: c3 :: c4 :: r =>
    if c1.isDigit && c2.isDigit && c3.isDigit && c4.isDigit then
      [(digitVal c1 * 1000 + digitVal c2 * 100 + digitVal c3 * 10 + digitVal c4, r)]
    else []
  | _ => []

/-- Candidate `(month, rest)` pairs for `%b` (case-insensitive). -/
def abbrCands (s : List Char) : List (Nat × List Char) :=
  monthAbbrs.filterMap (fun p =>
    if startsSeq p.1 (s.map Char.toLower) then some (p.2, s.drop p.1.length) else none)

/-- Candidate rests for `\s+`: one or more whitespace chars, longest first. -/
def wsCands (s : List Char) : List (List Char) :=
  let run := s.takeWhile isPyWs
  (List.range run.length).map (fun k => s.drop (run.length - k))

/-- Backtracking matcher for a token list against the remaining input,
carrying the `(year, month, day)` values collected so far; the whole input
must be consumed.  Alternatives are tried in regex order and the first
complete match wins, as in `re.match`. -/
def mtch : List FTok → List Char → Nat → Nat → Nat → Option (Nat × Nat × Nat)
  | [], [], y, m, d => some (y, m, d)
  | [], _ :: _, _, _, _ => none
  | .year :: ts, s, _, m, d =>
    (yearCands s).firstM (fun c => mtch ts c.2 c.1 m d)
  | .mon :: ts, s, y, _, d =>
    (monCands s).firstM (fun c => mtch ts c.2 y c.1 d)
  | .day :: ts, s, y, m, _ =>
    (dayCands s).firstM (fun c => mtch ts c.2 y m c.1)
  | .monAbbr :: ts, s, y, _, d =>
    (abbrCands s).firstM (fun c => mtch ts c.2 y c.1 d)
  | .lit c :: ts, s, y, m, d =>
    match s with
    | c' :: rest => if c' == c then mtch ts rest y m d else none
    | [] => none
  | .ws :: ts, s, y, m, d =>
    (wsCands s).firstM (fun rest => mtch ts rest y m d)

/-- Gregorian leap year. -/
def isLeap (y : Nat) : Bool := y % 4 == 0 && (y % 100 != 0 || y % 400 == 0)

/-- Days in a month. -/
def daysInMonth (y m : Nat) : Nat :=
  if m == 2 then (if isLeap y then 29 else 28)
  else if m == 4 || m == 6 || m == 9 || m == 11 then 30
  else 31

/-- `datetime.date(y, m, d)` is constructible. -/
def dateOk (y m d : Nat) : Bool :=
  1 ≤ y && y ≤ 9999 && 1 ≤ m && m ≤ 12 && 1 ≤ d && d ≤ daysInMonth y m

/-- `strptime(s, fmt)` succeeds and yields a valid date. -/
def strpOk (toks : List FTok) (s : String) : Bool :=
  match mtch toks s.toList 1900 1 1 with
  | some (y, m, d) => dateOk y m d
  | none => false

/-- The eight compiled formats tried in order by `validate_schema`:
`%Y-%m-%d`, `%d/%m/%Y`, `%m/%d/%Y`, `%Y/%m/%d`, `%d-%m-%Y`, `%m-%d-%Y`,
`%b %d, %Y`, `%d %b %Y`. -/
def dateFormats : List (List FTok) :=
  [[.year, .lit '-', .mon, .lit '-', .day],
   [.day, .lit '/', .mon, .lit '/', .year],
   [.mon, .lit '/', .day, .lit '/', .year],
   [.year, .lit '/', .mon, .lit '/', .day],
   [.day, .lit '-', .mon, .lit '-', .year],
   [.mon, .lit '-', .day, .lit '-', .year],
   [.monAbbr, .ws, .day, .lit ',', .ws, .year],
   [.day, .ws, .monAbbr, .ws, .year]]

/-- Some format in the list parses the value (`strptime` raises `TypeError`
for non-string values, which the source catches). -/
def pyDateOk : PyVal → Bool
  | .str s => dateFormats.any (fun f => strpOk f s)
  | _ => false

/-! ### `validate_schema` -/

/-- Add a name to a Python-set model (duplicate-free list, insertion order). -/
def insertUnique (l : List String) (s : String) : List String :=
  if s ∈ l then l else l ++ [s]

/-- The set of field names appearing in any record of the batch, in first
occurrence order (`field_names` in `validate_schema`, `sample_fields` in
`suggest_mapping`: both take the union of keys over ALL records). -/
def sampleFields (data : List Rec) : List String :=
  data.foldl (fun acc r => (recKeys r).foldl insertUnique acc) []

/-- `[record.get(f) for record in sample_data if f in record]`. -/
def fieldValues (data : List Rec) (f : String) : List PyVal :=
  data.filterMap (fun r => recGet r f)

/-- Bump the count of a type tag in an insertion-ordered counter. -/
def bumpCount : List (String × Nat) → String → List (String × Nat)
  | [], t => [(t, 1)]
  | (u, c) :: rest, t =>
    if u == t then (u, c + 1) :: rest else (u, c) :: bumpCount rest t

/-- `type_counts`: occurrences of each type tag, keyed in first-seen order. -/
def typeCounts (vs : List PyVal) : List (String × Nat) :=
  vs.foldl (fun acc v => bumpCount acc (typeName v)) []

/-- Python `max(items, key=count)`: the first entry of maximal count. -/
def pickMax (l : List (String × Nat)) : Option (String × Nat) :=
  l.foldl (fun best p =>
    match best with
    | some q => if p.2 > q.2 then some p else some q
    | none => some p) none

/-- The predominant non-null type of the values, `"null"` if none. -/
def actualTypeOf (vs : List PyVal) : String :=
  match pickMax ((typeCounts vs).filter (fun p => p.1 != "null")) with
  | some p => p.1
  | none => "null"

/-- `next((v for v in field_values if v is not None), field_values[0])`:
the first non-null value, else the first value; `none` iff no values. -/
def sampleValue (vs : List PyVal) : Option PyVal :=
  match vs.find? (fun v => v != PyVal.null) with
  | some v => some v
  | none => vs.head?

/-- `_infer_expected_type`: expected type from field-name heuristics. -/
def inferExpectedType (fieldName : String) : String :=
  let fl := fieldName.toLower
  if ["price", "cost", "msrp", "map", "discount", "amount"].any (fun t => strIn t fl) then
    "float"
  else if ["qty", "quantity", "count", "stock", "inventory", "units"].any (fun t => strIn t fl) then
    "int"
  else if ["date", "created", "updated", "modified", "time", "timestamp"].any (fun t => strIn t fl) then
    "date"
  else if ["is_", "has_", "active", "enabled", "flag", "status", "available"].any (fun t => strIn t fl) then
    "bool"
  else if endsSeq "_id" fl || fl == "id" || endsSeq "id" fl then
    if strIn "uuid" fl then "uuid" else "str"
  else "str"

/-- `_is_type_valid`: tolerant type-equivalence table. -/
def isTypeValid (actual expectd : String) : Bool :=
  if actual == expectd then true
  else if expectd == "float" && (actual == "int" || actual == "float") then true
  else if expectd == "int" && actual == "int" then true
  else if expectd == "bool" && (actual == "bool" || actual == "int") then true
  else if expectd == "date" && actual == "str" then true
  else if (expectd == "id" || expectd == "uuid") && actual == "str" then true
  else false

/-- The final `is_valid` flag for a field: the tolerant table, then the
coercion attempts performed on the representative sample value inside the
mismatch-note block of `validate_schema`.  The float and int attempts can
raise an uncaught `OverflowError`, which propagates (`error`); the date
attempt raises only caught exception classes. -/
def validOf (expectd actual : String) (sv : PyVal) : Except PyErr Bool :=
  if isTypeValid actual expectd then .ok true
  else if expectd == "float" && actual == "str" then pyFloatTry sv
  else if expectd == "int" && actual == "str" then pyIntTry sv
  else if expectd == "date" && actual == "str" then .ok (pyDateOk sv)
  else .ok false

/-- `SchemaValidationResult` (the `sample_value` is kept as the raw value
rather than its string form; the `notes` text is diagnostic only and is not
modelled). -/
structure SchemaValidationResult where
  field_name : String
  expected_type : String
  actual_type : String
  valid : Bool
  sample_value : PyVal
  deriving DecidableEq, Repr

/-- The loop body of `validate_schema` for one field name; `ok none` mirrors
the `continue` on a field with no values, `error` an uncaught exception from
a coercion attempt. -/
def validateField (data : List Rec) (f : String) :
    Except PyErr (Option SchemaValidationResult) :=
  let vs := fieldValues data f
  match sampleValue vs with
  | none => .ok none
  | some sv =>
    let expectd := inferExpectedType f
    let actual := actualTypeOf vs
    match validOf expectd actual sv with
    | .error e => .error e
    | .ok b => .ok (some ⟨f, expectd, actual, b, sv⟩)

/-- The field loop of `validate_schema`: results accumulate in order until a
field's coercion attempt raises, which aborts the whole call. -/
def validateFields (data : List Rec) : List String → Except PyErr (List SchemaValidationResult)
  | [] => .ok []
  | f :: fs =>
    match validateField data f with
    | .error e => .error e
    | .ok none => validateFields data fs
    | .ok (some r) =>
      match validateFields data fs with
      | .error e => .error e
      | .ok rs => .ok (r :: rs)

/-- `validate_schema(sample_data)`: the result list, or the uncaught
exception the Python function lets escape. -/
def validate_schema (data : List Rec) : Except PyErr (List SchemaValidationResult) :=
  if data.isEmpty then .ok []
  else validateFields data (sampleFields data)

/-! ### `difflib.SequenceMatcher(None, a, b).ratio()` -/

/-- Length of the common run at the heads of two lists. -/
def runLenAux : List Char → List Char → Nat
  | x :: xs, y :: ys => if x == y then runLenAux xs ys + 1 else 0
  | _, _ => 0

/-- `find_longest_match` over the whole strings: the longest common
contiguous block `(i, j, size)`, ties resolved to the smallest `i` then the
smallest `j`, as difflib's strictly-greater update does. -/
def longestMatch (a b : List Char) : Nat × Nat × Nat :=
  (List.range a.length).foldl (fun best i =>
    (List.range b.length).foldl (fun best j =>
      let k := runLenAux (a.drop i) (b.drop j)
      if k > best.2.2 then (i, j, k) else best) best) (0, 0, 0)

/-- Total size of all matching blocks (`get_matching_blocks`): take the
longest match, recurse left of it and right of it.  `fuel` bounds the
recursion depth; `a.length + b.length` always suffices. -/
def matchTotal (fuel : Nat) (a b : List Char) : Nat :=
  match fuel with
  | 0 => 0
  | fuel + 1 =>
    let (i, j, k) := longestMatch a b
    if k == 0 then 0
    else
      k + matchTotal fuel (a.take i) (b.take j)
        + matchTotal fuel (a.drop (i + k)) (b.drop (j + k))

/-- `M` in `ratio() = 2*M / T`. -/
def totalMatches (a b : List Char) : Nat :=
  matchTotal (a.length + b.length) a b

/-- `SequenceMatcher(None, a, b).ratio()` as an exact rational. -/
def ratio (sa sb : String) : ℚ :=
  let a := sa.toList
  let b := sb.toList
  let t := a.length + b.length
  if t == 0 then 1 else (2 * totalMatches a b : ℚ) / t

/-- The similarity used by `suggest_mapping`: the ratio of the lowercased
names, boosted to at least 0.8 when one lowercased name is a substring of
the other. -/
def similarity (templateField sampleField : String) : ℚ :=
  let tl := templateField.toLower
  let sl := sampleField.toLower
  let r := ratio tl sl
  if strIn tl sl || strIn sl tl then max r (4/5) else r

/-! ### `suggest_mapping` -/

/-- One entry of a template's `mappings` list; only `sourceField` matters to
scoring (`destinationField` and rule payloads are passed through opaquely). -/
structure FieldMapping where
  sourceField : Option String
  destinationField : Option String
  deriving DecidableEq, Repr

/-- A mapping template from the template store.  The source also accepts the
`mappings` value as a JSON string which either decodes to such a list or
makes the template be skipped; the structured form is modelled. -/
structure Template where
  id : Option Nat
  name : Option String
  mappings : List FieldMapping
  deriving DecidableEq, Repr

/-- `[mapping.get('sourceField') for mapping in mappings if mapping.get('sourceField')]`:
declared source fields, dropping absent and empty (falsy) ones. -/
def templateFields (t : Template) : List String :=
  t.mappings.filterMap (fun m =>
    match m.sourceField with
    | some s => if s == "" then none else some s
    | none => none)

/-- The exact-match counting loop of `suggest_mapping`. -/
def exactMatches (tf sf : List String) : Nat :=
  tf.countP (fun f => sf.contains f)

/-- `exact_match_score = exact_matches / len(template_fields)` (0 guard). -/
def exactScore (tf sf : List String) : ℚ :=
  if tf.isEmpty then 0 else (exactMatches tf sf : ℚ) / tf.length

/-- Best similarity of one template field against every sample field (the
inner loop with `best_field_score`; an identical sample field is skipped). -/
def bestFieldScore (f : String) (sf : List String) : ℚ :=
  sf.foldl (fun best s =>
    if f == s then best
    else
      let sim := similarity f s
      if sim > best then sim else best) 0

/-- Template fields with no exact hit in the sample fields. -/
def nonExactFields (tf sf : List String) : List String :=
  tf.filter (fun f => !sf.contains f)

/-- `fuzzy_match_score`: average best similarity over the non-exact
template fields, 0 when every field matched exactly.  No floor is applied
here — any positive best similarity contributes. -/
def fuzzyScore (tf sf : List String) : ℚ :=
  let ne := nonExactFields tf sf
  if ne.isEmpty then 0
  else (ne.foldl (fun acc f => acc + bestFieldScore f sf) 0) / ne.length

/-- `combined_score = exact_match_score * 0.7 + fuzzy_match_score * 0.3`. -/
def combinedScore (tf sf : List String) : ℚ :=
  exactScore tf sf * (7/10) + fuzzyScore tf sf * (3/10)

/-- One reported field match of the winning suggestion. -/
structure FieldMatch where
  templateField : String
  sampleField : String
  matchType : String
  confidence : ℚ
  deriving DecidableEq, Repr

/-- The `best_match` loop for one non-exact template field: the first sample
field attaining the maximal similarity, kept only when that similarity
exceeds 0.6 (`similarity > best_match_score and similarity > 0.6`). -/
def bestFuzzyMatch (f : String) (sf : List String) : Option (String × ℚ) :=
  sf.foldl (fun best s =>
    if f == s then best
    else
      let sim := similarity f s
      let bestScore := match best with
        | some p => p.2
        | none => 0
      if sim > bestScore && sim > (3/5 : ℚ) then some (s, sim) else best) none

/-- The winning template's `field_matches` list: exact hits with confidence
1.0, then fuzzy hits above the 0.6 floor (`if best_match:` — Python
truthiness also drops a match on the empty-string field name). -/
def fieldMatchesFor (tf sf : List String) : List FieldMatch :=
  (tf.filter (fun f => sf.contains f)).map (fun f => ⟨f, f, "exact", 1⟩)
  ++ (nonExactFields tf sf).filterMap (fun f =>
      match bestFuzzyMatch f sf with
      | some (s, c) => if s == "" then none else some ⟨f, s, "fuzzy", c⟩
      | none => none)

/-- The suggestion dictionary built for the best template. -/
structure Suggestion where
  template_id : Option Nat
  template_name : String
  field_matches : List FieldMatch
  exact_match_score : ℚ
  fuzzy_match_score : ℚ
  combined_score : ℚ
  deriving DecidableEq, Repr

/-- The suggestion built from a template against the sample fields. -/
def mkSuggestion (sf : List String) (t : Template) : Suggestion :=
  let tf := templateFields t
  ⟨t.id, t.name.getD "Unknown Template", fieldMatchesFor tf sf,
   exactScore tf sf, fuzzyScore tf sf, combinedScore tf sf⟩

/-- The body of the template loop: skip a template with no source fields,
else keep it when its combined score strictly beats the best so far. -/
def scoreStep (sf : List String) (acc : Option Suggestion × ℚ) (t : Template) :
    Option Suggestion × ℚ :=
  let tf := templateFields t
  if tf.isEmpty then acc
  else if combinedScore tf sf > acc.2 then (some (mkSuggestion sf t), combinedScore tf sf)
  else acc

/-- `suggest_mapping(sample_data, mapping_templates)`. -/
def suggest_mapping (data : List Rec) (templates : List Template) :
    Option Suggestion × ℚ :=
  if data.isEmpty || templates.isEmpty then (none, 0)
  else templates.foldl (scoreStep (sampleFields data)) (none, 0)

/-! ### Record filter -/

/-- Python `str(value)` for the flat scalar values (the rational carried by a
float is rendered by `toString`; the claims' inputs use string values, where
`str` is the identity). -/
def recText : PyVal → String
  | .null => "None"
  | .str s => s
  | .int n => toString n
  | .float (.finite q) => toString q
  | .float .inf => "inf"
  | .float .ninf => "-inf"
  | .float .nan => "nan"
  | .bool b => if b then "True" else "False"

/-- Modelled from the spec: the filter criteria accepted by `apply_filters`
(`src/app.py` imports `apply_filters` from `mdm_supplier.mapping`, but no
definition of it exists in the source tree; §4.4 of the spec fixes its
contract).  An absent criterion is a no-op.  The criteria key named
`sku` `_` `prefix` in the spec is rendered `skuPre` here. -/
structure FilterCriteria where
  category : Option String
  skuPre : Option String
  field_contains : List (String × String)
  limit : Option Nat
  deriving DecidableEq, Repr

/-- Candidate identifier fields probed by the SKU-prefix criterion. -/
def idFields : List String := ["sku", "product_id", "item_number", "part_number"]

/-- Modelled from the spec: keep records whose `category` field equals the
given value exactly. -/
def matchesCategory (c : Option String) (r : Rec) : Bool :=
  match c with
  | none => true
  | some cat =>
    match recGet r "category" with
    | some v => v == PyVal.str cat
    | none => false

/-- Case-insensitive substring test on the text form of a value. -/
def containsCI (hay sub : String) : Bool :=
  seqIn sub.toLower.toList hay.toLower.toList

/-- Modelled from the spec: some candidate identifier field's text form
starts with the given prefix string. -/
def matchesSkuPre (p : Option String) (r : Rec) : Bool :=
  match p with
  | none => true
  | some pre =>
    idFields.any (fun k =>
      match recGet r k with
      | some v => startsSeq pre.toList (recText v).toList
      | none => false)

/-- Modelled from the spec: every `field_contains` pair holds — the field is
present and its text form contains the substring case-insensitively. -/
def matchesFieldContains (fc : List (String × String)) (r : Rec) : Bool :=
  fc.all (fun p =>
    match recGet r p.1 with
    | some v => containsCI (recText v) p.2
    | none => false)

/-- All supplied predicate criteria hold for a record. -/
def matchesCriteria (c : FilterCriteria) (r : Rec) : Bool :=
  matchesCategory c.category r && matchesSkuPre c.skuPre r
    && matchesFieldContains c.field_contains r

/-- Modelled from the spec: `apply_filters(records, criteria)` — keep the
records satisfying all supplied criteria, in order, then truncate to at most
`limit` records. -/
def apply_filters (records : List Rec) (c : FilterCriteria) : List Rec :=
  let kept := records.filter (matchesCriteria c)
  match c.limit with
  | some n => kept.take n
  | none => kept

/-! ### Spec-side formulations used for refinement comparisons -/

/-- The spec's exact-match score, as worded in the claim: the number of the
template's declared source fields that appear verbatim in the observed field
set, divided by the total number of declared source fields. -/
def specExactMatchScore (t : Template) (data : List Rec) : ℚ :=
  ((templateFields t).countP (fun f => (sampleFields data).contains f) : ℚ)
    / (templateFields t).length

/-- The representative sample value of a field across the batch (first
non-null, else first), `PyVal.null` when the field never occurs. -/
def repValue (data : List Rec) (f : String) : PyVal :=
  (sampleValue (fieldValues data f)).getD PyVal.null

/-! ### Concrete fixtures used by witnesses and counterexamples -/

/-- A record whose only field is `sku`. -/
def recSku : Rec := [("sku", PyVal.str "A1")]

/-- A record whose only field is `zz`, a name unrelated to `sku`. -/
def recZZ : Rec := [("zz", PyVal.str "v")]

/-- A template declaring the single source field `sku`. -/
def tSku : Template := ⟨some 1, some "T", [⟨some "sku", none⟩]⟩

/-- Eleven records: ten contributing only `zz`, the eleventh `sku`. -/
def batch11 : List Rec := List.replicate 10 recZZ ++ [recSku]

/-- The suggestion `suggest_mapping` builds for `tSku` against `[recSku]`. -/
def sugSku : Suggestion :=
  ⟨some 1, "T", [⟨"sku", "sku", "exact", 1⟩], 1, 0, 7/10⟩

/-- A record whose only field is `ax`. -/
def recAx : Rec := [("ax", PyVal.str "v")]

/-- A template declaring the single source field `ab` (similarity with `ax`
is 1/2, below the 0.6 floor). -/
def tAb : Template := ⟨some 2, some "U", [⟨some "ab", none⟩]⟩

/-- The suggestion built for `tAb` against `[recAx]`: no field match is
reported, yet the fuzzy score 1/2 enters the combined score. -/
def sugAb : Suggestion := ⟨some 2, "U", [], 0, 1/2, 3/20⟩

/-- Two records for the same `price` field: one float-parsable string
value, one not. -/
def dC6 : List Rec := [[("price", PyVal.str "1.5")], [("price", PyVal.str "abc")]]

/-- Three ACME-prefixed records for the filter scenario. -/
def acme1 : Rec := [("sku", PyVal.str "ACME-1")]

/-- Second ACME record. -/
def acme2 : Rec := [("sku", PyVal.str "ACME-2")]

/-- Third ACME record. -/
def acme3 : Rec := [("sku", PyVal.str "ACME-3")]

/-- Criteria of the spec's filter scenario: SKU prefix `ACME-`, limit 1. -/
def acmeCrit : FilterCriteria := ⟨none, some "ACME-", [], some 1⟩

/-- A template with no mappings at all. -/
def tEmpty : Template := ⟨some 3, some "W", []⟩

/-- A mapping entry whose source field is `sku`. -/
def mSku : FieldMapping := ⟨some "sku", none⟩

/-! ### Helper lemmas -/

lemma mem_insertUnique {l : List String} {s x : String} :
    x ∈ insertUnique l s ↔ x ∈ l ∨ x = s := by
  unfold insertUnique
  split
  · rename_i h
    constructor
    · exact Or.inl
    · rintro (hx | rfl)
      · exact hx
      · exact h
  · simp [List.mem_append]

lemma mem_foldl_insertUnique (ks : List String) (acc : List String) (x : String) :
    x ∈ ks.foldl insertUnique acc ↔ x ∈ acc ∨ x ∈ ks := by
  induction ks generalizing acc with
  | nil => simp
  | cons k ks ih =>
    simp only [List.foldl_cons, ih, mem_insertUnique, List.mem_cons]
    tauto

lemma mem_sampleFields (data : List Rec) (x : String) :
    x ∈ sampleFields data ↔ ∃ r ∈ data, x ∈ recKeys r := by
  unfold sampleFields
  have key : ∀ (acc : List String),
      x ∈ data.foldl (fun acc r => (recKeys r).foldl insertUnique acc) acc ↔
        x ∈ acc ∨ ∃ r ∈ data, x ∈ recKeys r := by
    induction data with
    | nil => simp
    | cons r rs ih =>
      intro acc
      simp only [List.foldl_cons, ih, mem_foldl_insertUnique, List.mem_cons]
      constructor
      · rintro ((h | h) | ⟨r', hr', hx⟩)
        · exact Or.inl h
        · exact Or.inr ⟨r, Or.inl rfl, h⟩
        · exact Or.inr ⟨r', Or.inr hr', hx⟩
      · rintro (h | ⟨r', (rfl | hr'), hx⟩)
        · exact Or.inl (Or.inl h)
        · exact Or.inl (Or.inr hx)
        · exact Or.inr ⟨r', hr', hx⟩
  simpa using key []

lemma scoreStep_skip {sf : List String} {acc : Option Suggestion × ℚ}
    {t : Template} (h : (templateFields t).isEmpty) : scoreStep sf acc t = acc := by
  simp [scoreStep, h]

lemma foldl_scoreStep_filter (sf : List String) (ts : List Template)
    (st : Option Suggestion × ℚ) :
    (ts.filter (fun t => !(templateFields t).isEmpty)).foldl (scoreStep sf) st
      = ts.foldl (scoreStep sf) st := by
  induction ts generalizing st with
  | nil => rfl
  | cons t ts ih =>
    by_cases h : (templateFields t).isEmpty
    · simp only [List.filter_cons, h, Bool.not_true, if_neg (by simp : ¬(false = true))]
      rw [ih, List.foldl_cons, scoreStep_skip h]
    · simp only [List.filter_cons, Bool.not_eq_true'] at *
      simp only [h, Bool.not_false, List.foldl_cons]
      exact ih _

lemma mkSuggestion_combined (sf : List String) (t : Template) :
    (mkSuggestion sf t).combined_score = combinedScore (templateFields t) sf := rfl

lemma foldl_scoreStep_inv (sf : List String) (ts : List Template)
    (st : Option Suggestion × ℚ) (h0 : 0 ≤ st.2)
    (h1 : ∀ s, st.1 = some s → s.combined_score = st.2 ∧ 0 < st.2) :
    0 ≤ (ts.foldl (scoreStep sf) st).2 ∧
    ∀ s, (ts.foldl (scoreStep sf) st).1 = some s →
      s.combined_score = (ts.foldl (scoreStep sf) st).2 ∧
      0 < (ts.foldl (scoreStep sf) st).2 ∧
      (st.1 = some s ∨ ∃ t ∈ ts, templateFields t ≠ [] ∧ s = mkSuggestion sf t) := by
  induction ts generalizing st with
  | nil => exact ⟨h0, fun s hs => ⟨(h1 s hs).1, (h1 s hs).2, Or.inl hs⟩⟩
  | cons t ts ih =>
    simp only [List.foldl_cons]
    by_cases he : (templateFields t).isEmpty
    · rw [scoreStep_skip he]
      obtain ⟨g0, g1⟩ := ih st h0 h1
      refine ⟨g0, fun s hs => ?_⟩
      obtain ⟨e1, e2, e3⟩ := g1 s hs
      refine ⟨e1, e2, ?_⟩
      rcases e3 with h | ⟨t', ht', h'⟩
      · exact Or.inl h
      · exact Or.inr ⟨t', List.mem_cons_of_mem _ ht', h'⟩
    · have hne : templateFields t ≠ [] := by
        simpa [List.isEmpty_iff] using he
      by_cases hc : combinedScore (templateFields t) sf > st.2
      · have hstep : scoreStep sf st t
            = (some (mkSuggestion sf t), combinedScore (templateFields t) sf) := by
          simp [scoreStep, he, hc]
        rw [hstep]
        have h0' : (0:ℚ) ≤ combinedScore (templateFields t) sf :=
          le_of_lt (lt_of_le_of_lt h0 hc)
        have h1' : ∀ s,
            (some (mkSuggestion sf t), combinedScore (templateFields t) sf).1 = some s →
            s.combined_score
              = (some (mkSuggestion sf t), combinedScore (templateFields t) sf).2 ∧
            0 < (some (mkSuggestion sf t), combinedScore (templateFields t) sf).2 := by
          intro s hs
          cases hs
          exact ⟨rfl, lt_of_le_of_lt h0 hc⟩
        obtain ⟨g0, g1⟩ := ih _ h0' h1'
        refine ⟨g0, fun s hs => ?_⟩
        obtain ⟨e1, e2, e3⟩ := g1 s hs
        refine ⟨e1, e2, ?_⟩
        rcases e3 with h | ⟨t', ht', h'⟩
        · cases h
          exact Or.inr ⟨t, List.mem_cons_self t ts, hne, rfl⟩
        · exact Or.inr ⟨t', List.mem_cons_of_mem _ ht', h'⟩
      · have hstep : scoreStep sf st t = st := by
          simp [scoreStep, he, hc]
        rw [hstep]
        obtain ⟨g0, g1⟩ := ih st h0 h1
        refine ⟨g0, fun s hs => ?_⟩
        obtain ⟨e1, e2, e3⟩ := g1 s hs
        refine ⟨e1, e2, ?_⟩
        rcases e3 with h | ⟨t', ht', h'⟩
        · exact Or.inl h
        · exact Or.inr ⟨t', List.mem_cons_of_mem _ ht', h'⟩

lemma contains_of_mem {sf : List String} {f : String} (h : f ∈ sf) :
    sf.contains f = true := by
  simpa [List.contains] using List.elem_eq_true_of_mem h

lemma nonExactFields_append_mem {tf sf : List String} {f : String} (h : f ∈ sf) :
    nonExactFields (tf ++ [f]) sf = nonExactFields tf sf := by
  unfold nonExactFields
  rw [List.filter_append]
  simp [h]

lemma combinedScore_append_exact {tf sf : List String} {f : String} (h : f ∈ sf) :
    combinedScore tf sf ≤ combinedScore (tf ++ [f]) sf := by
  have hcont : sf.contains f = true := contains_of_mem h
  have hfz : fuzzyScore (tf ++ [f]) sf = fuzzyScore tf sf := by
    unfold fuzzyScore
    rw [nonExactFields_append_mem h]
  cases tf with
  | nil =>
    have l : combinedScore [] sf = 0 := by
      simp [combinedScore, exactScore, fuzzyScore, nonExactFields]
    have r : combinedScore ([] ++ [f]) sf = 7/10 := by
      simp [combinedScore, exactScore, fuzzyScore, nonExactFields, exactMatches, h]
    rw [l, r]
    norm_num
  | cons a tl =>
    have hexm : exactMatches (a :: tl ++ [f]) sf = exactMatches (a :: tl) sf + 1 := by
      unfold exactMatches
      rw [List.countP_append]
      simp [h]
    have hlen : (0:ℚ) < ((a :: tl).length : ℚ) := by
      exact_mod_cast Nat.succ_pos tl.length
    have hlen2 : ((a :: tl ++ [f]).length : ℚ) = ((a :: tl).length : ℚ) + 1 := by
      rw [List.length_append]
      push_cast
      simp [add_comm]
    have hle : (exactMatches (a :: tl) sf : ℚ) ≤ ((a :: tl).length : ℚ) := by
      exact_mod_cast List.countP_le_length _
    have hex : exactScore (a :: tl) sf ≤ exactScore (a :: tl ++ [f]) sf := by
      unfold exactScore
      rw [if_neg (by simp), if_neg (by simp), hexm, hlen2]
      rw [div_le_div_iff₀ hlen (by linarith)]
      push_cast
      nlinarith
    unfold combinedScore
    rw [hfz]
    have h7 : (0:ℚ) ≤ 7/10 := by norm_num
    exact add_le_add_right (mul_le_mul_of_nonneg_right hex h7) _

lemma templateFields_append {t : Template} {m : FieldMapping} {f : String}
    (hm : m.sourceField = some f) (hf : f ≠ "") :
    templateFields (Template.mk t.id t.name (t.mappings ++ [m]))
      = templateFields t ++ [f] := by
  unfold templateFields
  rw [List.filterMap_append]
  simp [hm, hf]

lemma suggest_mapping_some {data : List Rec} {templates : List Template}
    {s : Suggestion} {c : ℚ} (h : suggest_mapping data templates = (some s, c)) :
    s.combined_score = c ∧ 0 < c ∧
    ∃ t ∈ templates, templateFields t ≠ []
      ∧ s = mkSuggestion (sampleFields data) t := by
  unfold suggest_mapping at h
  split at h
  · simp at h
  · have h0 : (0:ℚ) ≤ ((none, 0) : Option Suggestion × ℚ).2 := le_refl 0
    have h1 : ∀ s', ((none, 0) : Option Suggestion × ℚ).1 = some s' →
        s'.combined_score = ((none, 0) : Option Suggestion × ℚ).2
          ∧ 0 < ((none, 0) : Option Suggestion × ℚ).2 := by
      intro s' hs'
      cases hs'
    obtain ⟨g0, g1⟩ := foldl_scoreStep_inv (sampleFields data) templates (none, 0) h0 h1
    have hfst : (templates.foldl (scoreStep (sampleFields data)) (none, 0)).1 = some s := by
      rw [h]
    have hsnd : (templates.foldl (scoreStep (sampleFields data)) (none, 0)).2 = c := by
      rw [h]
    obtain ⟨e1, e2, e3⟩ := g1 s hfst
    rcases e3 with hbad | hgood
    · cases hbad
    · exact ⟨hsnd ▸ e1, hsnd ▸ e2, hgood⟩

lemma mkSuggestion_formula (sf : List String) (t : Template) :
    (mkSuggestion sf t).combined_score
      = (7/10) * (mkSuggestion sf t).exact_match_score
        + (3/10) * (mkSuggestion sf t).fuzzy_match_score := by
  simp only [mkSuggestion, combinedScore]
  ring

lemma bestFuzzyMatch_floor {f : String} {sf : List String} {p : String × ℚ}
    (h : bestFuzzyMatch f sf = some p) : (3/5 : ℚ) < p.2 := by
  unfold bestFuzzyMatch at h
  suffices key : ∀ (l : List String) (init : Option (String × ℚ)),
      (∀ q, init = some q → (3/5:ℚ) < q.2) →
      ∀ q, l.foldl (fun best s =>
        if f == s then best
        else
          let sim := similarity f s
          let bestScore := match best with
            | some p => p.2
            | none => 0
          if sim > bestScore && sim > (3/5 : ℚ) then some (s, sim) else best) init = some q →
      (3/5:ℚ) < q.2 by
    exact key sf none (by intro q hq; cases hq) p h
  intro l
  induction l with
  | nil =>
    intro init hinit q hq
    exact hinit q hq
  | cons s ss ih =>
    intro init hinit q hq
    rw [List.foldl_cons] at hq
    refine ih _ ?_ q hq
    intro r hr
    split at hr
    · exact hinit r hr
    · dsimp only at hr
      split at hr
      · rename_i hcond
        cases hr
        simp only [Bool.and_eq_true, decide_eq_true_eq] at hcond
        exact hcond.2
      · exact hinit r hr

lemma fieldMatchesFor_fuzzy_floor {tf sf : List String} {m : FieldMatch}
    (hm : m ∈ fieldMatchesFor tf sf) (hty : m.matchType = "fuzzy") :
    (3/5 : ℚ) < m.confidence := by
  unfold fieldMatchesFor at hm
  rw [List.mem_append] at hm
  rcases hm with hm | hm
  · rw [List.mem_map] at hm
    obtain ⟨f, _, rfl⟩ := hm
    simp at hty
  · rw [List.mem_filterMap] at hm
    obtain ⟨f, _, hsome⟩ := hm
    cases hbm : bestFuzzyMatch f sf with
    | none => rw [hbm] at hsome; cases hsome
    | some p =>
      rw [hbm] at hsome
      obtain ⟨s, c⟩ := p
      dsimp only at hsome
      split at hsome
      · cases hsome
      · cases hsome
        exact bestFuzzyMatch_floor hbm

lemma validateField_ok_some {data : List Rec} {f : String} {r : SchemaValidationResult}
    (h : validateField data f = .ok (some r)) :
    ∃ sv, sampleValue (fieldValues data f) = some sv ∧
      ∃ b, validOf (inferExpectedType f) (actualTypeOf (fieldValues data f)) sv = .ok b ∧
        r = ⟨f, inferExpectedType f, actualTypeOf (fieldValues data f), b, sv⟩ := by
  simp only [validateField] at h
  cases hsv : sampleValue (fieldValues data f) with
  | none => rw [hsv] at h; cases h
  | some sv =>
    rw [hsv] at h
    dsimp only at h
    cases hvo : validOf (inferExpectedType f) (actualTypeOf (fieldValues data f)) sv with
    | error e =>
      rw [hvo] at h
      cases h
    | ok b =>
      rw [hvo] at h
      cases h
      exact ⟨sv, rfl, b, hvo, rfl⟩

lemma mem_validateFields {data : List Rec} :
    ∀ {fs : List String} {rs : List SchemaValidationResult},
      validateFields data fs = .ok rs → ∀ {r}, r ∈ rs →
      ∃ f ∈ fs, validateField data f = .ok (some r) := by
  intro fs
  induction fs with
  | nil =>
    intro rs h r hr
    cases h
    cases hr
  | cons f fs ih =>
    intro rs h r hr
    unfold validateFields at h
    cases hv : validateField data f with
    | error e => rw [hv] at h; cases h
    | ok o =>
      rw [hv] at h
      cases o with
      | none =>
        obtain ⟨g, hg, hgv⟩ := ih h hr
        exact ⟨g, List.mem_cons_of_mem _ hg, hgv⟩
      | some r0 =>
        cases hrec : validateFields data fs with
        | error e => rw [hrec] at h; cases h
        | ok rs0 =>
          rw [hrec] at h
          cases h
          rcases List.mem_cons.mp hr with rfl | hr'
          · exact ⟨f, List.mem_cons_self f fs, hv⟩
          · obtain ⟨g, hg, hgv⟩ := ih hrec hr'
            exact ⟨g, List.mem_cons_of_mem _ hg, hgv⟩

lemma mem_validate_schema {data : List Rec} {rs : List SchemaValidationResult}
    {r : SchemaValidationResult} (h : validate_schema data = .ok rs) (hr : r ∈ rs) :
    ∃ f ∈ sampleFields data, validateField data f = .ok (some r) := by
  unfold validate_schema at h
  split at h
  · cases h
    cases hr
  · exact mem_validateFields h hr

/-! ### Claim theorems -/

/-- C1: for a non-empty sample batch and a template with at least one
declared source field, the combined score computed by `suggest_mapping` is
0.7 times the exact-match score plus 0.3 times the fuzzy-match score, where
the exact-match score is the number of template source fields appearing
verbatim in the observed field set divided by the number of template source
fields; moreover every suggestion returned by `suggest_mapping` carries
scores in exactly this relation. -/
theorem combined_score_is_weighted_sum (data : List Rec) (t : Template)
    (_hd : data ≠ []) (ht : templateFields t ≠ []) :
    combinedScore (templateFields t) (sampleFields data)
      = (7/10) * specExactMatchScore t data
        + (3/10) * fuzzyScore (templateFields t) (sampleFields data) ∧
    ∀ (templates : List Template) (s : Suggestion) (c : ℚ),
      suggest_mapping data templates = (some s, c) →
      s.combined_score
        = (7/10) * s.exact_match_score + (3/10) * s.fuzzy_match_score := by
  constructor
  · unfold combinedScore exactScore specExactMatchScore exactMatches
    rw [if_neg (by simpa [List.isEmpty_iff] using ht)]
    ring
  · intro templates s c h
    obtain ⟨_, _, t', _, _, rfl⟩ := suggest_mapping_some h
    exact mkSuggestion_formula _ t'

/-- C1 witness: the weighted-sum relation evaluated on a concrete batch and
template. -/
theorem combined_score_is_weighted_sum_witness :
    combinedScore (templateFields tSku) (sampleFields [recSku])
      = (7/10) * specExactMatchScore tSku [recSku]
        + (3/10) * fuzzyScore (templateFields tSku) (sampleFields [recSku]) :=
  (combined_score_is_weighted_sum [recSku] tSku (by decide) (by decide)).1

/-- C2: with an empty record list or an empty template list,
`suggest_mapping` returns a null suggestion and confidence 0.0. -/
theorem suggest_mapping_empty_inputs (data : List Rec) (templates : List Template)
    (h : data = [] ∨ templates = []) :
    suggest_mapping data templates = (none, 0) := by
  rcases h with rfl | rfl
  · simp [suggest_mapping]
  · simp [suggest_mapping]

/-- C2 witness: both lists empty. -/
theorem suggest_mapping_empty_inputs_witness :
    suggest_mapping ([] : List Rec) ([] : List Template) = (none, 0) :=
  suggest_mapping_empty_inputs [] [] (Or.inl rfl)

/-- C3: templates with zero declared source fields are skipped: removing
them all leaves the result of `suggest_mapping` unchanged, and any returned
best suggestion stems from a template with at least one source field. -/
theorem zero_field_templates_skipped (data : List Rec) (templates : List Template) :
    suggest_mapping data (templates.filter (fun t => !(templateFields t).isEmpty))
      = suggest_mapping data templates ∧
    ∀ (s : Suggestion) (c : ℚ), suggest_mapping data templates = (some s, c) →
      ∃ t ∈ templates, templateFields t ≠ [] ∧ s.template_id = t.id := by
  constructor
  · by_cases hd : data.isEmpty
    · simp [suggest_mapping, hd]
    · by_cases hts : templates.isEmpty
      · rw [List.isEmpty_iff.mp hts]
        simp
      · by_cases hf : (templates.filter (fun t => !(templateFields t).isEmpty)).isEmpty
        · have hfe : templates.filter (fun t => !(templateFields t).isEmpty) = [] :=
            List.isEmpty_iff.mp hf
          rw [hfe]
          unfold suggest_mapping
          rw [if_pos (by simp), if_neg (by simp [hd, hts])]
          rw [← foldl_scoreStep_filter, hfe]
          rfl
        · unfold suggest_mapping
          rw [if_neg (by simp [hd, hf]), if_neg (by simp [hd, hts])]
          exact foldl_scoreStep_filter _ _ _
  · intro s c h
    obtain ⟨_, _, t, ht, hne, rfl⟩ := suggest_mapping_some h
    exact ⟨t, ht, hne, rfl⟩

/-- C3 witness: on a concrete batch and a singleton template list, filtering
zero-field templates is a no-op and the winning suggestion's id is the
template's id. -/
theorem zero_field_templates_skipped_witness :
    suggest_mapping [recSku] ([tSku].filter (fun t => !(templateFields t).isEmpty))
      = suggest_mapping [recSku] [tSku] ∧ sugSku.template_id = tSku.id := by
  refine ⟨(zero_field_templates_skipped [recSku] [tSku]).1, ?_⟩
  obtain ⟨t, ht, _, hid⟩ :=
    (zero_field_templates_skipped [recSku] [tSku]).2 sugSku (7/10)
      (by with_unfolding_all decide)
  have : t = tSku := by simpa using ht
  rw [hid, this]

/-- C4 counterexample: against the single observed field `ax`, the template
field `ab` has best similarity 1/2, which does not exceed the 0.6 floor —
yet `suggest_mapping` returns combined score 3/20 > 0 for that template, so
a similarity at or below 0.6 did increase the combined score (had it
contributed 0, the combined score would be 0 and no suggestion returned). -/
theorem fuzzy_floor_claim_false :
    similarity "ab" "ax" = 1/2 ∧ ((1:ℚ)/2 ≤ 3/5) ∧
    suggest_mapping [recAx] [tAb] = (some sugAb, 3/20) ∧ ((0:ℚ) < 3/20) := by
  refine ⟨?_, by norm_num, ?_, by norm_num⟩
  · with_unfolding_all decide
  · with_unfolding_all decide

/-- C4 as amended: the 0.6 floor governs only the fuzzy entries reported in
the winning suggestion's field-match list — each reported fuzzy match has
confidence strictly above 0.6 — while the fuzzy-match score entering the
combined score averages each unmatched field's best similarity with no
floor, so similarities at or below 0.6 can increase the combined score. -/
theorem fuzzy_floor_only_in_field_matches (tf sf : List String) :
    (∀ m ∈ fieldMatchesFor tf sf, m.matchType = "fuzzy" → (3/5 : ℚ) < m.confidence) ∧
    (combinedScore ["ab"] ["ax"] = 3/20 ∧ similarity "ab" "ax" ≤ 3/5) := by
  refine ⟨fun m hm hty => fieldMatchesFor_fuzzy_floor hm hty, ?_, ?_⟩
  · with_unfolding_all decide
  · with_unfolding_all decide

/-- C4 witness: the fuzzy match reported for template field `price` against
observed field `unit_price` has confidence 4/5, above the floor. -/
theorem fuzzy_floor_only_in_field_matches_witness : (3/5 : ℚ) < (4/5 : ℚ) := by
  have h := (fuzzy_floor_only_in_field_matches ["price"] ["unit_price"]).1
    ⟨"price", "unit_price", "fuzzy", 4/5⟩ (by with_unfolding_all decide) rfl
  simpa using h

/-- C5 counterexample: on an 11-record batch whose `sku` field occurs only
in the eleventh record, `suggest_mapping` returns a different result than on
the first ten records alone — the observed field set is NOT discovered from
only the first 10 records. -/
theorem first_ten_records_claim_false :
    suggest_mapping batch11 [tSku] ≠ suggest_mapping (batch11.take 10) [tSku] := by
  intro h
  have h1 : (suggest_mapping batch11 [tSku]).1.isSome
      = (suggest_mapping (batch11.take 10) [tSku]).1.isSome := by rw [h]
  have h2 : (suggest_mapping batch11 [tSku]).1.isSome = true := by
    with_unfolding_all decide
  have h3 : (suggest_mapping (batch11.take 10) [tSku]).1.isSome = false := by
    with_unfolding_all decide
  rw [h2, h3] at h1
  cases h1

/-- C5 as amended: `suggest_mapping` discovers the observed field-name set
from ALL records of the batch: a field name occurring in any record —
however late — is in the observed set used for matching. -/
theorem observed_fields_from_all_records (data : List Rec) (r : Rec) (f : String)
    (hr : r ∈ data) (hf : f ∈ recKeys r) : f ∈ sampleFields data :=
  (mem_sampleFields data f).mpr ⟨r, hr, hf⟩

/-- C5 witness: the `sku` field of the eleventh record is observed. -/
theorem observed_fields_from_all_records_witness : "sku" ∈ sampleFields batch11 :=
  observed_fields_from_all_records batch11 recSku "sku" (by decide) (by decide)

/-- C6 counterexample: for the `price` field sampled as `"1.5"` then
`"abc"`, expected type float and actual type string, `validate_schema`
marks the field valid although not every sampled value parses as a float —
only the representative first value is tried. -/
theorem float_coercion_claim_false :
    validate_schema dC6
      = .ok [⟨"price", "float", "str", true, PyVal.str "1.5"⟩] ∧
    (fieldValues dC6 "price").all pyFloatOk = false := by
  constructor
  · with_unfolding_all rfl
  · with_unfolding_all decide

/-- C6 as amended: when the expected type is float and the detected actual
type is string, a field of a successfully returned result list is marked
valid if and only if the single representative sample value (first non-null)
parses as a float. -/
theorem float_coercion_single_value (data : List Rec)
    (rs : List SchemaValidationResult) (r : SchemaValidationResult)
    (hok : validate_schema data = .ok rs) (hr : r ∈ rs)
    (he : r.expected_type = "float") (ha : r.actual_type = "str") :
    r.valid = pyFloatOk (repValue data r.field_name) := by
  obtain ⟨f, _, hv⟩ := mem_validate_schema hok hr
  obtain ⟨sv, hsv, b, hvo, rfl⟩ := validateField_ok_some hv
  simp only at he ha
  rw [he, ha] at hvo
  have hvo' : pyFloatTry sv = .ok b := by
    rw [show validOf "float" "str" sv = pyFloatTry sv from rfl] at hvo
    exact hvo
  simp only [repValue, hsv, Option.getD_some]
  show b = pyFloatOk sv
  simp only [pyFloatOk, hvo']

/-- C6 witness: the concrete batch of the counterexample, where the
representative value `"1.5"` parses, so the field is valid. -/
theorem float_coercion_single_value_witness :
    (⟨"price", "float", "str", true, PyVal.str "1.5"⟩ : SchemaValidationResult).valid
      = pyFloatOk (repValue dC6 "price") :=
  float_coercion_single_value dC6
    [⟨"price", "float", "str", true, PyVal.str "1.5"⟩]
    ⟨"price", "float", "str", true, PyVal.str "1.5"⟩
    (by with_unfolding_all rfl) (by decide) rfl rfl

/-- C7 (spec-modelled): the record filter returns exactly the records
satisfying all supplied criteria, order-preserving (a sublist of the input):
with a limit of `n` the result is the full predicate-filtered sequence
truncated to its first `n` records — the limit applied after all predicate
filters — and with no limit it is exactly the predicate filter of the
input. -/
theorem apply_filters_contract (records : List Rec) (c : FilterCriteria) :
    List.Sublist (apply_filters records c) records ∧
    (∀ r ∈ apply_filters records c, matchesCriteria c r = true) ∧
    (∀ n, c.limit = some n →
      apply_filters records c = (records.filter (matchesCriteria c)).take n ∧
      (apply_filters records c).length ≤ n) ∧
    (c.limit = none → apply_filters records c = records.filter (matchesCriteria c)) := by
  unfold apply_filters
  cases hl : c.limit with
  | none =>
    refine ⟨List.filter_sublist _, ?_, ?_, fun _ => rfl⟩
    · intro r hr
      exact List.of_mem_filter hr
    · intro n hn
      cases hn
  | some n =>
    refine ⟨(List.take_sublist _ _).trans (List.filter_sublist _), ?_, ?_, ?_⟩
    · intro r hr
      exact List.of_mem_filter (List.mem_of_mem_take hr)
    · intro n' hn'
      cases hn'
      exact ⟨rfl, List.length_take_le _ _⟩
    · intro hn
      cases hn

/-- C7 witness: the spec's filter scenario — SKU prefix `ACME-` with limit 1
on three matching records returns exactly the first matching record. -/
theorem apply_filters_contract_witness :
    apply_filters [acme1, acme2, acme3] acmeCrit = [acme1] ∧
    matchesCriteria acmeCrit acme1 = true := by
  constructor
  · rw [((apply_filters_contract [acme1, acme2, acme3] acmeCrit).2.2.1 1 rfl).1]
    decide
  · exact (apply_filters_contract [acme1, acme2, acme3] acmeCrit).2.1 acme1 (by decide)

/-- C8: the totality claim fails on the code.  On the well-formed batch
whose `quantity` field holds the values `float('inf')`, `"x"`, `"y"`, the
predominant type is `str`, the representative value is `inf`, the expected
type from the name heuristic is `int`, and the int-coercion attempt runs
`int(float('inf'))` — whose `OverflowError` is not caught by the
`except (ValueError, TypeError)` clause — so `validate_schema` raises
instead of returning a result object. -/
theorem validate_schema_overflow_crash :
    validate_schema [[("quantity", PyVal.float PyFloat.inf)],
                     [("quantity", PyVal.str "x")],
                     [("quantity", PyVal.str "y")]]
      = .error PyErr.overflowError := by
  with_unfolding_all rfl

/-- C9: extending a template's mapping list with an additional source field
that is exactly present in the observed field set never decreases the
template's combined score. -/
theorem exact_field_extension_monotone (data : List Rec) (t : Template)
    (m : FieldMapping) (f : String) (hm : m.sourceField = some f) (hf : f ≠ "")
    (hin : f ∈ sampleFields data) :
    combinedScore (templateFields t) (sampleFields data)
      ≤ combinedScore
          (templateFields (Template.mk t.id t.name (t.mappings ++ [m])))
          (sampleFields data) := by
  rw [templateFields_append hm hf]
  exact combinedScore_append_exact hin

/-- C9 witness: adding the exactly-matching field `sku` to the empty
template against the batch `[recSku]`. -/
theorem exact_field_extension_monotone_witness :
    combinedScore (templateFields tEmpty) (sampleFields [recSku])
      ≤ combinedScore
          (templateFields (Template.mk tEmpty.id tEmpty.name (tEmpty.mappings ++ [mSku])))
          (sampleFields [recSku]) :=
  exact_field_extension_monotone [recSku] tEmpty mSku "sku" rfl (by decide) (by decide)

/-- C10: whenever `suggest_mapping` returns a non-null suggestion, the
returned confidence is strictly positive and equals the suggestion's
`combined_score`; and a null suggestion does not imply empty inputs — a
non-empty batch against a non-empty template list can yield `(none, 0)`. -/
theorem confidence_positive_for_suggestion :
    (∀ (data : List Rec) (templates : List Template) (s : Suggestion) (c : ℚ),
      suggest_mapping data templates = (some s, c) →
      0 < c ∧ s.combined_score = c) ∧
    ([recZZ] ≠ ([] : List Rec) ∧ [tSku] ≠ ([] : List Template) ∧
      suggest_mapping [recZZ] [tSku] = (none, 0)) := by
  constructor
  · intro data templates s c h
    obtain ⟨h1, h2, _⟩ := suggest_mapping_some h
    exact ⟨h2, h1⟩
  · exact ⟨by decide, by decide, by with_unfolding_all decide⟩

/-- C10 witness: the suggestion returned for `tSku` on `[recSku]` has
confidence 7/10 > 0 equal to its combined score. -/
theorem confidence_positive_for_suggestion_witness :
    0 < (7/10 : ℚ) ∧ sugSku.combined_score = (7/10 : ℚ) :=
  confidence_positive_for_suggestion.1 [recSku] [tSku] sugSku (7/10)
    (by with_unfolding_all decide)

end PMS
